import Mathlib

/-!
# PMD block driver (`drivers/block/pmd.c`)

A shallow embedding of the physical-memory-disk driver: the request dispatch
loop `do_pmd_request`, the initialisation ladder `pmd_init`, the teardown
`pmd_exit` and the block-device operations `pmd_open` and `pmd_release`,
followed by theorems about them.

Conventions.

* `unsigned long` values are natural numbers reduced modulo `2 ^ w`, where
  `w` is the bit width of `unsigned long` (32 on OMAP).  A sector number is a
  natural number; `sector_t` is at least as wide as `unsigned long`, so the
  `unsigned long` that receives `blk_rq_pos(req) << 9` holds the shifted value
  modulo `2 ^ w`.  The byte length of a segment is an `unsigned int` widened
  to `unsigned long`.
* Pointers are natural numbers, `0` being `NULL`.
* CPU-addressable memory is a function from addresses to bytes.  The buffer
  of a request segment is caller-owned memory that does not alias the mapped
  region, so it is carried as a list of bytes inside the segment.
* The block layer (`blk_fetch_request`, `__blk_end_request_cur`,
  `register_blkdev`, `ioremap`, ...) is not part of `pmd.c`; it is modelled
  from the specification's description of the host collaborator.
-/

namespace Pmd

/-! ## Constants of `pmd.c` and `errno` values -/

/-- Physical base address of the backing region (`#define PMD_BASE`). -/
def PMD_BASE : Nat := 0x84000000

/-- Capacity in sectors (`#define PMD_SECTORS`). -/
def PMD_SECTORS : Nat := 0x10000

/-- Sector size in bytes (`#define KERNEL_SECTOR_SIZE`). -/
def KERNEL_SECTOR_SIZE : Nat := 512

/-- The `errno` value for an I/O error. -/
def EIO : Int := 5

/-- The `errno` value for out of memory. -/
def ENOMEM : Int := 12

/-- The `errno` value for a busy device or resource. -/
def EBUSY : Int := 16

/-! ## Data model of the dispatch path -/

/-- A byte of memory. -/
abbrev Byte := Nat

/-- CPU-addressable memory: address to byte. -/
abbrev Mem := Nat → Byte

/-- Transfer direction of a request (`rq_data_dir`). -/
inductive Dir where
  | READ
  | WRITE
  deriving DecidableEq, Repr

/-- Modelled from the spec: a request segment as the host delivers it,
`(direction, start_sector, byte_length, buffer)`.  The byte length of the
segment is the length of its buffer. -/
structure Segment where
  dir : Dir
  pos : Nat
  buffer : List Byte
  deriving DecidableEq, Repr

/-- Modelled from the spec: a request is the segment currently presented by
the host followed by the segments still to be presented. -/
structure Request where
  cur : Segment
  rest : List Segment
  deriving DecidableEq, Repr

/-- Modelled from the spec: a completion signal `(request, status)`; the
segment is recorded as it is when completion is signalled, so a completed
read carries the bytes transferred into its buffer. -/
structure Completion where
  seg : Segment
  err : Int
  deriving DecidableEq, Repr

/-- Modelled from the spec: the host-delivered queue, with the completion
signals received so far in chronological order. -/
structure request_queue where
  pending : List Request
  completed : List Completion
  deriving DecidableEq, Repr

/-- One `memcpy` between a segment buffer and device memory, as issued by the
dispatch loop: the offset `start` added to the mapped base, the resulting
address and the length. -/
structure Copy where
  dir : Dir
  start : Nat
  addr : Nat
  len : Nat
  deriving DecidableEq, Repr

/-- The file-scope variables of `pmd.c` that the code reads or writes (the
counters `pmd_count`, `chip_count` and `list_count` are never used). -/
structure Driver where
  pmd_virt : Nat
  pmd_size : Nat
  current_device : Int
  pmd_gendisk : Nat
  pmd_queue : Nat
  deriving DecidableEq, Repr

/-- The state the dispatch loop works on: memory, the host queue, and the
record of the copies performed (a ghost trace, in chronological order). -/
structure IOState where
  mem : Mem
  q : request_queue
  copies : List Copy

/-! ## Host primitives used by the dispatch loop -/

/-- Modelled from the spec: `blk_fetch_request`, the next pending request of
the host queue, or `none` when the queue reports empty. -/
def blk_fetch_request (q : request_queue) : request_queue × Option Request :=
  match q.pending with
  | [] => (q, none)
  | r :: rs => ({ q with pending := rs }, some r)

/-- Modelled from the spec: `blk_rq_pos`, the start sector of the current
segment. -/
def blk_rq_pos (req : Request) : Nat := req.cur.pos

/-- Modelled from the spec: `blk_rq_cur_bytes`, the byte length of the current
segment. -/
def blk_rq_cur_bytes (req : Request) : Nat := req.cur.buffer.length

/-- Modelled from the spec: `rq_data_dir`, the direction of the request. -/
def rq_data_dir (req : Request) : Dir := req.cur.dir

/-- Modelled from the spec: `__blk_end_request_cur`, which signals completion
of the current segment with status `err` and reports whether the request still
has segments pending (then the request presents its next segment). -/
def __blk_end_request_cur (q : request_queue) (req : Request) (err : Int) :
    request_queue × Option Request :=
  let q1 := { q with completed := q.completed ++ [⟨req.cur, err⟩] }
  match req.rest with
  | [] => (q1, none)
  | s :: ss => (q1, some ⟨s, ss⟩)

/-- The library routine `memcpy(dst, src, n)` with the destination in memory. -/
def memcpy_to (mem : Mem) (dst : Nat) (src : List Byte) (n : Nat) : Mem :=
  fun a => if dst ≤ a ∧ a < dst + n then src.getD (a - dst) 0 else mem a

/-- The library routine `memcpy(dst, src, n)` with the source in memory: the
`n` bytes that are stored into the destination buffer. -/
def memcpy_from (mem : Mem) (src : Nat) (n : Nat) : List Byte :=
  (List.range n).map (fun i => mem (src + i))

/-! ## `do_pmd_request` -/

/-- The test `start + len > pmd_size` of `do_pmd_request` (line 65), in
`unsigned long` arithmetic of width `w`, with `start = blk_rq_pos(req) << 9`
and `len = blk_rq_cur_bytes(req)`. -/
def bad_access (w : Nat) (d : Driver) (req : Request) : Bool :=
  let start := (blk_rq_pos req <<< 9) % 2 ^ w
  let len := blk_rq_cur_bytes req
  decide ((start + len) % 2 ^ w > d.pmd_size)

/-- Lines 60-76 of `do_pmd_request`: the body of the loop up to the label
`done`.  Returns the state, the request (whose buffer a read has filled) and
the value of `err`. -/
def pmd_transfer (w : Nat) (d : Driver) (s : IOState) (req : Request) :
    IOState × Request × Int :=
  let start := (blk_rq_pos req <<< 9) % 2 ^ w
  let len := blk_rq_cur_bytes req
  let addr := (d.pmd_virt + start) % 2 ^ w
  if bad_access w d req then
    (s, req, - EIO)
  else if rq_data_dir req = Dir.READ then
    ({ s with copies := s.copies ++ [⟨Dir.READ, start, addr, len⟩] },
      { req with cur := { req.cur with buffer := memcpy_from s.mem addr len } }, 0)
  else
    ({ s with mem := memcpy_to s.mem addr req.cur.buffer len,
              copies := s.copies ++ [⟨Dir.WRITE, start, addr, len⟩] }, req, 0)

/-- Lines 77-79 of `do_pmd_request`: the label `done`, which completes the
current segment and fetches the next request when this one is finished. -/
def pmd_done (s : IOState) (req : Request) (err : Int) : IOState × Option Request :=
  match __blk_end_request_cur s.q req err with
  | (q1, some req1) => ({ s with q := q1 }, some req1)
  | (q1, none) =>
    let r := blk_fetch_request q1
    ({ s with q := r.1 }, r.2)

/-- The `while (req)` loop of `do_pmd_request`, one iteration per unit of
fuel; `none` when the fuel runs out before the loop exits. -/
def pmd_loop (w : Nat) (d : Driver) : Nat → IOState → Option Request → Option IOState
  | _, s, none => some s
  | 0, _, some _ => none
  | fuel + 1, s, some req =>
    let t := pmd_transfer w d s req
    let n := pmd_done t.1 t.2.1 t.2.2
    pmd_loop w d fuel n.1 n.2

/-- The number of segments the host queue still has to deliver. -/
def pending_segments (q : request_queue) : Nat :=
  (q.pending.map (fun r => r.rest.length + 1)).sum

/-- The segments the host queue delivers, in delivery order. -/
def delivered (q : request_queue) : List Segment :=
  (q.pending.map (fun r => r.cur :: r.rest)).flatten

/-- The request handler `do_pmd_request(q)`, run with the given fuel. -/
def do_pmd_request (w : Nat) (d : Driver) (fuel : Nat) (s : IOState) : Option IOState :=
  let r := blk_fetch_request s.q
  pmd_loop w d fuel { s with q := r.1 } r.2

/-! ## Host model of the lifecycle path -/

/-- A call made into the host subsystem by `pmd_init` or `pmd_exit`, with its
arguments (and, for an allocation, the handle it returned). -/
inductive HostCall where
  | register_blkdev
  | unregister_blkdev
  | ioremap (phys size virt : Nat)
  | iounmap (virt : Nat)
  | blk_init_queue (queue : Nat)
  | blk_cleanup_queue (queue : Nat)
  | alloc_disk (disk : Nat)
  | set_capacity (disk sectors : Nat)
  | add_disk (disk : Nat)
  | del_gendisk (disk : Nat)
  | put_disk (disk : Nat)
  deriving DecidableEq, Repr

/-- Modelled from the spec: what the host will answer to the acquisition
calls.  `register_err` is the result of registering the identity when it is
free (`0` is success), `ioremap_virt phys size` the mapped address (`0` is
failure), `queue_handle` and `disk_handle` the results of `blk_init_queue` and
`alloc_disk` (`0` is failure). -/
structure HostEnv where
  register_err : Int
  ioremap_virt : Nat → Nat → Nat
  queue_handle : Nat
  disk_handle : Nat

/-- Modelled from the spec: the resources the host subsystem holds on behalf
of the driver, and the chronological record of the calls it received.
`registered` says that the device identity (`PMD_MAJOR`, `DEVICE_NAME`) is
taken. -/
structure Host where
  registered : Bool
  mapped : List Nat
  queues : List Nat
  disks : List Nat
  published : List Nat
  disk_queue : Nat
  capacity : Nat
  calls : List HostCall
  deriving DecidableEq, Repr

/-- Modelled from the spec: `register_blkdev(PMD_MAJOR, DEVICE_NAME)`; it fails
with `-EBUSY` when the identity is already taken. -/
def register_blkdev (env : HostEnv) (h : Host) : Host × Int :=
  let h1 := { h with calls := h.calls ++ [HostCall.register_blkdev] }
  if h.registered then (h1, - EBUSY)
  else if env.register_err ≠ 0 then (h1, env.register_err)
  else ({ h1 with registered := true }, 0)

/-- Modelled from the spec: `unregister_blkdev(PMD_MAJOR, DEVICE_NAME)`. -/
def unregister_blkdev (h : Host) : Host :=
  { h with registered := false, calls := h.calls ++ [HostCall.unregister_blkdev] }

/-- Modelled from the spec: `ioremap(phys, size)`, the mapped address or
`NULL`. -/
def ioremap (env : HostEnv) (h : Host) (phys size : Nat) : Host × Nat :=
  let v := env.ioremap_virt phys size
  let h1 := { h with calls := h.calls ++ [HostCall.ioremap phys size v] }
  if v = 0 then (h1, 0) else ({ h1 with mapped := v :: h.mapped }, v)

/-- Modelled from the spec: `iounmap(virt)`. -/
def iounmap (h : Host) (virt : Nat) : Host :=
  { h with mapped := h.mapped.erase virt, calls := h.calls ++ [HostCall.iounmap virt] }

/-- Modelled from the spec: `blk_init_queue(do_pmd_request, &pmd_lock)`, the
new request queue or `NULL`. -/
def blk_init_queue (env : HostEnv) (h : Host) : Host × Nat :=
  let q := env.queue_handle
  let h1 := { h with calls := h.calls ++ [HostCall.blk_init_queue q] }
  if q = 0 then (h1, 0) else ({ h1 with queues := q :: h.queues }, q)

/-- Modelled from the spec: `blk_cleanup_queue(q)`. -/
def blk_cleanup_queue (h : Host) (q : Nat) : Host :=
  { h with queues := h.queues.erase q, calls := h.calls ++ [HostCall.blk_cleanup_queue q] }

/-- Modelled from the spec: `alloc_disk(1)`, the new disk or `NULL`. -/
def alloc_disk (env : HostEnv) (h : Host) : Host × Nat :=
  let g := env.disk_handle
  let h1 := { h with calls := h.calls ++ [HostCall.alloc_disk g] }
  if g = 0 then (h1, 0) else ({ h1 with disks := g :: h.disks }, g)

/-- Modelled from the spec: `set_capacity(disk, sectors)`. -/
def set_capacity (h : Host) (disk sectors : Nat) : Host :=
  { h with capacity := sectors, calls := h.calls ++ [HostCall.set_capacity disk sectors] }

/-- Modelled from the spec: `add_disk(disk)`, which publishes the disk. -/
def add_disk (h : Host) (disk : Nat) : Host :=
  { h with published := disk :: h.published, calls := h.calls ++ [HostCall.add_disk disk] }

/-- Modelled from the spec: `del_gendisk(disk)`, which unpublishes the disk. -/
def del_gendisk (h : Host) (disk : Nat) : Host :=
  { h with published := h.published.erase disk, calls := h.calls ++ [HostCall.del_gendisk disk] }

/-- Modelled from the spec: `put_disk(disk)`, which drops the disk. -/
def put_disk (h : Host) (disk : Nat) : Host :=
  { h with disks := h.disks.erase disk, calls := h.calls ++ [HostCall.put_disk disk] }

/-! ## `pmd_init` and `pmd_exit` -/

/-- Lines 181-184 of `pmd_init`: the labels `out_ioremap` and `err`. -/
def out_ioremap (d : Driver) (h : Host) (ret : Int) : Driver × Host × Int :=
  (d, unregister_blkdev h, ret)

/-- Lines 178-180 of `pmd_init`: the labels `out_disk` and `out_queue`, which
fall through to `out_ioremap`. -/
def out_queue (d : Driver) (h : Host) (ret : Int) : Driver × Host × Int :=
  out_ioremap d (iounmap h d.pmd_virt) ret

/-- Lines 147-176 of `pmd_init`: from `ret = -ENOMEM` to `return 0`.  The
assignments of `major`, `first_minor`, `fops` and `disk_name` (lines 164-167)
fill identity fields of the disk that no host primitive modelled here reads;
the host records the queue bound to the disk and its capacity. -/
def pmd_init_queue (env : HostEnv) (d : Driver) (h : Host) : Driver × Host × Int :=
  let ret : Int := - ENOMEM
  let rq := blk_init_queue env h
  let d1 := { d with pmd_queue := rq.2 }
  if d1.pmd_queue = 0 then
    out_queue d1 rq.1 ret
  else
    let rg := alloc_disk env rq.1
    let d2 := { d1 with pmd_gendisk := rg.2 }
    if d2.pmd_gendisk = 0 then
      out_queue d2 rg.1 ret
    else
      let h1 := { rg.1 with disk_queue := d2.pmd_queue }
      let h2 := set_capacity h1 d2.pmd_gendisk PMD_SECTORS
      let h3 := add_disk h2 d2.pmd_gendisk
      (d2, h3, 0)

/-- The module initialisation `pmd_init`: the new values of the file-scope
variables, the host state, and the return value. -/
def pmd_init (env : HostEnv) (d : Driver) (h : Host) : Driver × Host × Int :=
  let ret : Int := - EBUSY
  let rr := register_blkdev env h
  if rr.2 ≠ 0 then
    (d, rr.1, ret)
  else
    let d1 := { d with pmd_size := PMD_SECTORS * KERNEL_SECTOR_SIZE }
    let rm := ioremap env rr.1 PMD_BASE d1.pmd_size
    let d2 := { d1 with pmd_virt := rm.2 }
    if d2.pmd_virt = 0 then
      let rf := ioremap env rm.1 (PMD_BASE + 0x10000000) d2.pmd_size
      let d3 := { d2 with pmd_virt := rf.2 }
      if d3.pmd_virt = 0 then
        out_ioremap d3 rf.1 ret
      else
        pmd_init_queue env d3 rf.1
    else
      pmd_init_queue env d2 rm.1

/-- The module exit `pmd_exit`. -/
def pmd_exit (d : Driver) (h : Host) : Driver × Host :=
  let h1 := unregister_blkdev h
  let h2 := del_gendisk h1 d.pmd_gendisk
  let h3 := put_disk h2 d.pmd_gendisk
  let h4 := blk_cleanup_queue h3 d.pmd_queue
  (d, h4)

/-- The file-scope variables as the C initialisers leave them. -/
def Driver.initial : Driver :=
  { pmd_virt := 0, pmd_size := 0, current_device := -1, pmd_gendisk := 0, pmd_queue := 0 }

/-- A host that holds nothing for the driver and has received no call. -/
def Host.idle : Host :=
  { registered := false, mapped := [], queues := [], disks := [], published := [],
    disk_queue := 0, capacity := 0, calls := [] }

/-! ## Auxiliary definitions for the statements -/

/-- The effect of one loop iteration on memory, completions and copies when
`seg` is the current segment; the pending list of the result is empty. -/
def serve (w : Nat) (d : Driver) (s : IOState) (seg : Segment) : IOState :=
  let t := pmd_transfer w d s ⟨seg, []⟩
  { t.1 with q := ⟨[], s.q.completed ++ [⟨t.2.1.cur, t.2.2⟩]⟩ }

/-- The state `do_pmd_request` returns: every delivered segment served in
delivery order, and the host queue empty. -/
def served (w : Nat) (d : Driver) (s : IOState) : IOState :=
  let r := List.foldl (serve w d) s (delivered s.q)
  { r with q := { r.q with pending := [] } }

/-- The status the bounds test of `do_pmd_request` gives a segment. -/
def status (w : Nat) (d : Driver) (seg : Segment) : Int :=
  if bad_access w d ⟨seg, []⟩ then - EIO else 0

/-- The file-scope variables after a successful `pmd_init` on a 32-bit
machine: 65536 sectors mapped at `0xFA000000`. -/
def omap_device : Driver :=
  { pmd_virt := 0xFA000000, pmd_size := PMD_SECTORS * KERNEL_SECTOR_SIZE,
    current_device := -1, pmd_gendisk := 1, pmd_queue := 1 }

/-- The device of the specification's scenarios: 16 sectors. -/
def scenario_device : Driver :=
  { pmd_virt := 0xFA000000, pmd_size := 16 * KERNEL_SECTOR_SIZE,
    current_device := -1, pmd_gendisk := 1, pmd_queue := 1 }

/-- A dispatch state with zeroed memory, the given requests pending and no
completion or copy recorded. -/
def fresh (reqs : List Request) : IOState :=
  { mem := fun _ => 0, q := ⟨reqs, []⟩, copies := [] }

/-- The size `pmd_init` asks `ioremap` for. -/
def map_size : Nat := PMD_SECTORS * KERNEL_SECTOR_SIZE

/-- The address the mapping step of `pmd_init` ends with: the primary mapping
when it succeeds, otherwise the result of the single retry at the fallback
address (`0` when both fail). -/
def mapped_at (env : HostEnv) : Nat :=
  if env.ioremap_virt PMD_BASE map_size ≠ 0 then env.ioremap_virt PMD_BASE map_size
  else env.ioremap_virt (PMD_BASE + 0x10000000) map_size

/-- The `ioremap` calls the mapping step of `pmd_init` makes. -/
def map_calls (env : HostEnv) : List HostCall :=
  if env.ioremap_virt PMD_BASE map_size ≠ 0 then
    [HostCall.ioremap PMD_BASE map_size (env.ioremap_virt PMD_BASE map_size)]
  else
    [HostCall.ioremap PMD_BASE map_size 0,
     HostCall.ioremap (PMD_BASE + 0x10000000) map_size
       (env.ioremap_virt (PMD_BASE + 0x10000000) map_size)]

/-- The calls a host received after it was in state `h`. -/
def new_calls (h h1 : Host) : List HostCall := h1.calls.drop h.calls.length

/-- Whether a host call is the retry of the mapping at the fallback address. -/
def is_fallback_map : HostCall → Bool
  | HostCall.ioremap phys _ _ => decide (phys = PMD_BASE + 0x10000000)
  | _ => false

/-- The four kinds of release step of a teardown. -/
inductive Release where
  | unpublish
  | queue
  | unmap
  | unregister
  deriving DecidableEq, Repr

/-- The release step a host call starts, if any: `del_gendisk` unpublishes the
disk (the `put_disk` that follows drops the reference and belongs to the same
step), `blk_cleanup_queue` tears the queue down, `iounmap` unmaps the region
and `unregister_blkdev` unregisters the identity. -/
def release_step : HostCall → Option Release
  | HostCall.del_gendisk _ => some Release.unpublish
  | HostCall.blk_cleanup_queue _ => some Release.queue
  | HostCall.iounmap _ => some Release.unmap
  | HostCall.unregister_blkdev => some Release.unregister
  | _ => none

/-- A host on which every acquisition succeeds. -/
def host_ok : HostEnv :=
  { register_err := 0, ioremap_virt := fun _ _ => 0xFA000000, queue_handle := 7,
    disk_handle := 9 }

/-- A host on which mapping fails at the primary and at the fallback address. -/
def host_no_mapping : HostEnv :=
  { register_err := 0, ioremap_virt := fun _ _ => 0, queue_handle := 7, disk_handle := 9 }

/-- A host on which mapping succeeds only at the fallback address. -/
def host_fallback : HostEnv :=
  { register_err := 0,
    ioremap_virt := fun phys _ => if phys = PMD_BASE then 0 else 0xFA000000,
    queue_handle := 7, disk_handle := 9 }

/-- A host on which the request queue cannot be constructed. -/
def host_no_queue : HostEnv :=
  { register_err := 0, ioremap_virt := fun _ _ => 0xFA000000, queue_handle := 0,
    disk_handle := 9 }

/-- A host on which the disk cannot be allocated. -/
def host_no_disk : HostEnv :=
  { register_err := 0, ioremap_virt := fun _ _ => 0xFA000000, queue_handle := 7,
    disk_handle := 0 }

/-- The states of the file-scope variables and of the host that are reachable
from the initial state by calls of `pmd_init` (on any host answers) and of
`pmd_exit`. -/
inductive Reachable : Driver → Host → Prop where
  | start : Reachable Driver.initial Host.idle
  | init (env : HostEnv) {d : Driver} {h : Host} :
      Reachable d h → Reachable (pmd_init env d h).1 (pmd_init env d h).2.1
  | exit {d : Driver} {h : Host} :
      Reachable d h → Reachable (pmd_exit d h).1 (pmd_exit d h).2

/-- The state the open/release gate works on: the file-scope variables, the
memory, the mutex `pmd_mutex` (`true` while it is held) and the lines written
by `printk`. -/
structure Gate where
  drv : Driver
  mem : Mem
  pmd_mutex : Bool
  console : List String

/-- The kernel routine `printk(msg)`: the message is appended to the log. -/
def printk (g : Gate) (msg : String) : Gate :=
  { g with console := g.console ++ [msg] }

/-- The kernel routine `mutex_lock(&pmd_mutex)`: it takes the mutex when it is
free; on a mutex that is held the caller sleeps, and in a sequential run no one
releases it, so the call does not return (`none`). -/
def mutex_lock (g : Gate) : Option Gate :=
  if g.pmd_mutex then none else some { g with pmd_mutex := true }

/-- The kernel routine `mutex_unlock(&pmd_mutex)`. -/
def mutex_unlock (g : Gate) : Gate :=
  { g with pmd_mutex := false }

/-- The block-device operation `pmd_open(bdev, mode)`. -/
def pmd_open (_bdev : Nat) (_mode : Nat) (g : Gate) : Gate × Int :=
  (printk g "pmd_open called\n", 0)

/-- The block-device operation `pmd_release(disk, mode)`; `none` when the call
does not return. -/
def pmd_release (_disk : Nat) (_mode : Nat) (g : Gate) : Option (Gate × Int) :=
  match mutex_lock g with
  | none => none
  | some g1 =>
    if g1.drv.current_device = -1 then
      some (mutex_unlock g1, 0)
    else
      some (mutex_unlock g1, 0)

/-! ## The dispatch loop: characterisation -/

theorem serve_pending (w : Nat) (d : Driver) (s : IOState) (seg : Segment)
    (p : List Request) :
    serve w d { s with q := { s.q with pending := p } } seg = serve w d s seg := by
  unfold serve pmd_transfer
  by_cases hb : bad_access w d ⟨seg, []⟩ = true
  · simp [hb]
  · by_cases hr : rq_data_dir ⟨seg, []⟩ = Dir.READ <;> simp [hb, hr]

/-- One iteration of the loop, in terms of `serve`. -/
theorem pmd_iteration (w : Nat) (d : Driver) (s : IOState) (cur : Segment)
    (rest : List Segment) :
    (pmd_done (pmd_transfer w d s ⟨cur, rest⟩).1 (pmd_transfer w d s ⟨cur, rest⟩).2.1
        (pmd_transfer w d s ⟨cur, rest⟩).2.2) =
      match rest, s.q.pending with
      | x :: xs, p => ({ serve w d s cur with q := { (serve w d s cur).q with pending := p } },
                        some ⟨x, xs⟩)
      | [], [] => (serve w d s cur, none)
      | [], r :: rs => ({ serve w d s cur with q := { (serve w d s cur).q with pending := rs } },
                        some r) := by
  obtain ⟨mem, ⟨pending, completed⟩, copies⟩ := s
  have hb : bad_access w d ⟨cur, rest⟩ = bad_access w d ⟨cur, []⟩ := rfl
  have hr : rq_data_dir ⟨cur, rest⟩ = rq_data_dir ⟨cur, []⟩ := rfl
  unfold serve pmd_transfer pmd_done __blk_end_request_cur blk_fetch_request
  rw [hb, hr]
  by_cases hb1 : bad_access w d ⟨cur, []⟩ = true
  · cases rest <;> cases pending <;> simp [hb1]
  · by_cases hr1 : rq_data_dir ⟨cur, []⟩ = Dir.READ
    · cases rest <;> cases pending <;> simp [hb1, hr1, blk_rq_cur_bytes, blk_rq_pos]
    · cases rest <;> cases pending <;> simp [hb1, hr1, blk_rq_cur_bytes, blk_rq_pos]

theorem pmd_loop_spec (w : Nat) (d : Driver) :
    ∀ (fuel : Nat) (s : IOState) (req : Request),
      req.rest.length + 1 + pending_segments s.q ≤ fuel →
      pmd_loop w d fuel s (some req) =
        some (List.foldl (serve w d) s (req.cur :: req.rest ++ delivered s.q)) := by
  intro fuel
  induction fuel with
  | zero => intro s req h; omega
  | succ n ih =>
    intro s req h
    obtain ⟨cur, rest⟩ := req
    rw [pmd_loop, pmd_iteration]
    cases rest with
    | nil =>
      cases hp : s.q.pending with
      | nil =>
        simp [pmd_loop, delivered, hp]
      | cons r rs =>
        simp only []
        rw [ih]
        · simp [delivered, hp, List.foldl, serve_pending]
        · simp [pending_segments, hp] at h ⊢
          omega
    | cons x xs =>
      simp only []
      rw [ih]
      · simp [delivered, List.foldl, serve_pending]
      · simp [pending_segments] at h ⊢
        omega

theorem foldl_serve_pending (w : Nat) (d : Driver) :
    ∀ (L : List Segment) (s : IOState), s.q.pending = [] →
      (List.foldl (serve w d) s L).q.pending = [] := by
  intro L
  induction L with
  | nil => intro s h; simpa using h
  | cons x xs ih => intro s _; exact ih _ rfl

/-- Totality and result of the handler: with at least one unit of fuel per
pending segment, `do_pmd_request` returns `served`. -/
theorem do_pmd_request_eq (w : Nat) (d : Driver) (fuel : Nat) (s : IOState)
    (h : pending_segments s.q ≤ fuel) :
    do_pmd_request w d fuel s = some (served w d s) := by
  obtain ⟨mem, ⟨pending, completed⟩, copies⟩ := s
  cases pending with
  | nil => simp [do_pmd_request, blk_fetch_request, pmd_loop, served, delivered]
  | cons r rs =>
    have hf : r.rest.length + 1 + pending_segments ⟨rs, completed⟩ ≤ fuel := by
      simp [pending_segments] at h ⊢
      omega
    have hp := foldl_serve_pending w d (r.rest ++ delivered ⟨rs, completed⟩)
      (serve w d ⟨mem, ⟨r :: rs, completed⟩, copies⟩ r.cur) rfl
    simp only [do_pmd_request, blk_fetch_request]
    rw [pmd_loop_spec w d fuel _ r hf]
    simp only [served, delivered, List.map_cons, List.flatten_cons, List.cons_append,
      List.foldl_cons] at hp ⊢
    have hs := serve_pending w d ⟨mem, ⟨r :: rs, completed⟩, copies⟩ r.cur rs
    simp only [] at hs
    rw [hs]
    generalize List.foldl (serve w d) (serve w d ⟨mem, ⟨r :: rs, completed⟩, copies⟩ r.cur)
      (r.rest ++ (List.map (fun r => r.cur :: r.rest) rs).flatten) = z at hp ⊢
    obtain ⟨zm, ⟨zp, zc⟩, zcp⟩ := z
    simp at hp
    simp [hp]

theorem memcpy_from_length (mem : Mem) (a n : Nat) : (memcpy_from mem a n).length = n := by
  simp [memcpy_from]

theorem serve_completed (w : Nat) (d : Driver) (s : IOState) (seg : Segment) :
    ∃ c : Completion, (serve w d s seg).q.completed = s.q.completed ++ [c] ∧
      c.seg.dir = seg.dir ∧ c.seg.pos = seg.pos ∧
      c.seg.buffer.length = seg.buffer.length ∧ c.err = status w d seg := by
  unfold serve pmd_transfer status
  by_cases hb : bad_access w d ⟨seg, []⟩ = true
  · exact ⟨⟨seg, - EIO⟩, by simp [hb]⟩
  · by_cases hr : rq_data_dir ⟨seg, []⟩ = Dir.READ
    · refine ⟨⟨⟨seg.dir, seg.pos, memcpy_from s.mem
          ((d.pmd_virt + (seg.pos <<< 9) % 2 ^ w) % 2 ^ w) seg.buffer.length⟩, 0⟩, ?_⟩
      simp [hb, hr, blk_rq_cur_bytes, blk_rq_pos, memcpy_from_length]
    · exact ⟨⟨seg, 0⟩, by simp [hb, hr]⟩

theorem foldl_serve_completed (w : Nat) (d : Driver) :
    ∀ (L : List Segment) (s : IOState),
      ∃ cs : List Completion,
        (List.foldl (serve w d) s L).q.completed = s.q.completed ++ cs ∧
        cs.map (fun c => (c.seg.dir, c.seg.pos, c.seg.buffer.length, c.err)) =
          L.map (fun g => (g.dir, g.pos, g.buffer.length, status w d g)) := by
  intro L
  induction L with
  | nil => intro s; exact ⟨[], by simp⟩
  | cons x xs ih =>
    intro s
    obtain ⟨c, hc, h1, h2, h3, h4⟩ := serve_completed w d s x
    obtain ⟨cs, hcs, hm⟩ := ih (serve w d s x)
    refine ⟨c :: cs, ?_, ?_⟩
    · simp [List.foldl_cons, hcs, hc]
    · simp [hm, h1, h2, h3, h4]

/-- C4: for every queue of requests, `do_pmd_request` (given one unit of fuel
per pending segment) returns with the queue drained, having appended to the
completion signals exactly one signal per delivered segment, in delivery
order, each for the segment delivered (same direction, sector and length),
with status `-EIO` when the segment fails the bounds test and `0` otherwise. -/
theorem C4_one_completion_per_segment (w : Nat) (d : Driver) (fuel : Nat) (s : IOState)
    (h : pending_segments s.q ≤ fuel) :
    ∃ (out : IOState) (cs : List Completion),
      do_pmd_request w d fuel s = some out ∧
      out.q.pending = [] ∧
      out.q.completed = s.q.completed ++ cs ∧
      cs.map (fun c => (c.seg.dir, c.seg.pos, c.seg.buffer.length, c.err)) =
        (delivered s.q).map (fun g => (g.dir, g.pos, g.buffer.length,
          if bad_access w d ⟨g, []⟩ then - EIO else 0)) := by
  obtain ⟨cs, hcs, hm⟩ := foldl_serve_completed w d (delivered s.q) s
  exact ⟨served w d s, cs, do_pmd_request_eq w d fuel s h, rfl, by simpa [served] using hcs, hm⟩

theorem memcpy_roundtrip (mem : Mem) (a : Nat) (P : List Byte) :
    memcpy_from (memcpy_to mem a P P.length) a P.length = P := by
  apply List.ext_getElem
  · simp [memcpy_from]
  · intro i h1 h2
    simp [memcpy_from, memcpy_to, h2, List.getD_eq_getElem?_getD, List.getElem?_eq_getElem h2]

theorem bad_access_in_range (w : Nat) (d : Driver) (req : Request)
    (h : req.cur.pos * 512 + req.cur.buffer.length ≤ d.pmd_size) :
    bad_access w d req = false := by
  have h1 : (req.cur.pos <<< 9) % 2 ^ w ≤ req.cur.pos * 512 := by
    rw [Nat.shiftLeft_eq]
    exact Nat.mod_le _ _
  have h2 : ((req.cur.pos <<< 9) % 2 ^ w + req.cur.buffer.length) % 2 ^ w ≤
      (req.cur.pos <<< 9) % 2 ^ w + req.cur.buffer.length := Nat.mod_le _ _
  simp only [bad_access, blk_rq_pos, blk_rq_cur_bytes, decide_eq_false_iff_not, not_lt]
  omega

/-- C3: for every device size, every sector `pos` and every byte pattern `P`
with `pos * 512 + |P| ≤ pmd_size`, dispatching a write of `P` at `pos` and then
a read of the same sector and length completes both segments with status `0`
and the read's buffer holds exactly `P`; whether the two segments arrive as two
requests in one invocation, as two segments of one request, or in two
successive invocations of `do_pmd_request`. -/
theorem C3_write_then_read (w : Nat) (d : Driver) (mem : Mem) (copies : List Copy)
    (pos : Nat) (P rd : List Byte) (fuel : Nat)
    (hlen : rd.length = P.length)
    (hin : pos * 512 + P.length ≤ d.pmd_size) (hf : 2 ≤ fuel) :
    (∃ out, do_pmd_request w d fuel
        ⟨mem, ⟨[⟨⟨Dir.WRITE, pos, P⟩, []⟩, ⟨⟨Dir.READ, pos, rd⟩, []⟩], []⟩, copies⟩ = some out ∧
      out.q.completed = [⟨⟨Dir.WRITE, pos, P⟩, 0⟩, ⟨⟨Dir.READ, pos, P⟩, 0⟩]) ∧
    (∃ out, do_pmd_request w d fuel
        ⟨mem, ⟨[⟨⟨Dir.WRITE, pos, P⟩, [⟨Dir.READ, pos, rd⟩]⟩], []⟩, copies⟩ = some out ∧
      out.q.completed = [⟨⟨Dir.WRITE, pos, P⟩, 0⟩, ⟨⟨Dir.READ, pos, P⟩, 0⟩]) ∧
    (∃ out1 out2,
      do_pmd_request w d fuel ⟨mem, ⟨[⟨⟨Dir.WRITE, pos, P⟩, []⟩], []⟩, copies⟩ = some out1 ∧
      do_pmd_request w d fuel
        { out1 with q := { out1.q with pending := [⟨⟨Dir.READ, pos, rd⟩, []⟩] } } = some out2 ∧
      out2.q.completed = [⟨⟨Dir.WRITE, pos, P⟩, 0⟩, ⟨⟨Dir.READ, pos, P⟩, 0⟩]) := by
  have hw : bad_access w d ⟨⟨Dir.WRITE, pos, P⟩, []⟩ = false :=
    bad_access_in_range w d _ hin
  have hr : bad_access w d ⟨⟨Dir.READ, pos, rd⟩, []⟩ = false :=
    bad_access_in_range w d _ (by simpa [hlen] using hin)
  refine ⟨⟨_, do_pmd_request_eq w d fuel _ (by simpa [pending_segments] using hf), ?_⟩,
    ⟨_, do_pmd_request_eq w d fuel _ (by simpa [pending_segments] using hf), ?_⟩,
    ⟨_, _, do_pmd_request_eq w d fuel _ (by simp [pending_segments]; omega),
      do_pmd_request_eq w d fuel _ (by simp [pending_segments]; omega), ?_⟩⟩
  · simp [served, delivered, serve, pmd_transfer, hw, hr, rq_data_dir, blk_rq_pos,
      blk_rq_cur_bytes, hlen, memcpy_roundtrip]
  · simp [served, delivered, serve, pmd_transfer, hw, hr, rq_data_dir, blk_rq_pos,
      blk_rq_cur_bytes, hlen, memcpy_roundtrip]
  · simp [served, delivered, serve, pmd_transfer, hw, hr, rq_data_dir, blk_rq_pos,
      blk_rq_cur_bytes, hlen, memcpy_roundtrip]

/-! ## Claims about the dispatch loop -/

set_option maxRecDepth 100000 in
/-- C1, evaluated at the failing input: on a 32-bit machine with the default
65536-sector device, a write of 512 bytes at sector 8388608 lies beyond the
device as exact integers (8388608 * 512 + 512 > pmd_size), yet `start`
wraps to 0, the bounds test passes, the segment completes with status 0 and
the first byte of the backing store changes from 0 to 170. -/
theorem C1_wrapped_write_is_accepted :
    8388608 * 512 + (List.replicate 512 170).length > omap_device.pmd_size ∧
    ∃ out, do_pmd_request 32 omap_device 1
        (fresh [⟨⟨Dir.WRITE, 8388608, List.replicate 512 170⟩, []⟩]) = some out ∧
      out.q.completed.map Completion.err = [0] ∧
      (fresh []).mem omap_device.pmd_virt = 0 ∧
      out.mem omap_device.pmd_virt = 170 := by
  refine ⟨by simp [omap_device, PMD_SECTORS, KERNEL_SECTOR_SIZE], ?_⟩
  simp [do_pmd_request, pmd_loop, pmd_transfer, pmd_done, bad_access, omap_device, blk_rq_pos,
    blk_rq_cur_bytes, fresh, __blk_end_request_cur, blk_fetch_request, rq_data_dir,
    PMD_SECTORS, KERNEL_SECTOR_SIZE, memcpy_to, EIO]

set_option maxRecDepth 100000 in
/-- C2, evaluated at the failing input: on a 32-bit machine with the default
65536-sector device mapped at `0xFA000000`, a write of 1024 bytes at sector
8388607 is not rejected (status 0); the copy it performs has
`start = 2 ^ 32 - 512` and `len = 1024`, so `start + len > pmd_size`, and it
writes the byte at address `0xF9FFFFFF`, which lies below the mapped region. -/
theorem C2_copy_outside_region :
    ∃ out, do_pmd_request 32 omap_device 1
        (fresh [⟨⟨Dir.WRITE, 8388607, List.replicate 1024 170⟩, []⟩]) = some out ∧
      out.q.completed.map Completion.err = [0] ∧
      out.copies = [⟨Dir.WRITE, 4294966784, 4194303488, 1024⟩] ∧
      4294966784 + 1024 > omap_device.pmd_size ∧
      4194304000 - 1 < omap_device.pmd_virt ∧
      (fresh []).mem (4194304000 - 1) = 0 ∧
      out.mem (4194304000 - 1) = 170 := by
  simp [do_pmd_request, pmd_loop, pmd_transfer, pmd_done, bad_access, omap_device, blk_rq_pos,
    blk_rq_cur_bytes, fresh, __blk_end_request_cur, blk_fetch_request, rq_data_dir,
    PMD_SECTORS, KERNEL_SECTOR_SIZE, memcpy_to, EIO]

set_option maxRecDepth 100000 in
/-- Witness for C3 (scenario 1 of the specification): on a 16-sector device,
writing 512 bytes of `0xAA` at sector 0 and reading sector 0 returns 512 bytes
of `0xAA`. -/
theorem C3_write_then_read_witness :
    (List.replicate 512 0).length = (List.replicate 512 170).length ∧
    0 * 512 + (List.replicate 512 170).length ≤ scenario_device.pmd_size ∧
    ∃ out, do_pmd_request 32 scenario_device 2
        ⟨fun _ => 0, ⟨[⟨⟨Dir.WRITE, 0, List.replicate 512 170⟩, []⟩,
          ⟨⟨Dir.READ, 0, List.replicate 512 0⟩, []⟩], []⟩, []⟩ = some out ∧
      out.q.completed = [⟨⟨Dir.WRITE, 0, List.replicate 512 170⟩, 0⟩,
        ⟨⟨Dir.READ, 0, List.replicate 512 170⟩, 0⟩] :=
  ⟨by simp, by simp [scenario_device, KERNEL_SECTOR_SIZE],
    (C3_write_then_read 32 scenario_device (fun _ => 0) [] 0 (List.replicate 512 170)
      (List.replicate 512 0) 2 (by simp) (by simp [scenario_device, KERNEL_SECTOR_SIZE])
      (by decide)).1⟩

set_option maxRecDepth 100000 in
/-- Witness for C4 (segment batching): on a 16-sector device, one request
split into an in-range segment (sector 0) and an out-of-range segment
(sector 16) yields one completion with status 0 and one with `-EIO`; and the
same with the out-of-range segment first. -/
theorem C4_one_completion_per_segment_witness :
    (∃ (out : IOState) (cs : List Completion),
      do_pmd_request 32 scenario_device 2
        (fresh [⟨⟨Dir.WRITE, 0, List.replicate 512 170⟩,
          [⟨Dir.WRITE, 16, List.replicate 512 170⟩]⟩]) = some out ∧
      out.q.pending = [] ∧ out.q.completed = cs ∧
      cs.map (fun c => (c.seg.dir, c.seg.pos, c.seg.buffer.length, c.err)) =
        [(Dir.WRITE, 0, 512, 0), (Dir.WRITE, 16, 512, -5)]) ∧
    (∃ (out : IOState) (cs : List Completion),
      do_pmd_request 32 scenario_device 2
        (fresh [⟨⟨Dir.WRITE, 16, List.replicate 512 170⟩,
          [⟨Dir.WRITE, 0, List.replicate 512 170⟩]⟩]) = some out ∧
      out.q.pending = [] ∧ out.q.completed = cs ∧
      cs.map (fun c => (c.seg.dir, c.seg.pos, c.seg.buffer.length, c.err)) =
        [(Dir.WRITE, 16, 512, -5), (Dir.WRITE, 0, 512, 0)]) := by
  constructor
  · obtain ⟨out, cs, h1, h2, h3, h4⟩ := C4_one_completion_per_segment 32 scenario_device 2
      (fresh [⟨⟨Dir.WRITE, 0, List.replicate 512 170⟩,
        [⟨Dir.WRITE, 16, List.replicate 512 170⟩]⟩]) (by simp [pending_segments, fresh])
    refine ⟨out, cs, h1, h2, by simpa [fresh] using h3, ?_⟩
    rw [h4]
    simp [delivered, fresh, bad_access, blk_rq_pos, blk_rq_cur_bytes, scenario_device,
      KERNEL_SECTOR_SIZE, EIO]
  · obtain ⟨out, cs, h1, h2, h3, h4⟩ := C4_one_completion_per_segment 32 scenario_device 2
      (fresh [⟨⟨Dir.WRITE, 16, List.replicate 512 170⟩,
        [⟨Dir.WRITE, 0, List.replicate 512 170⟩]⟩]) (by simp [pending_segments, fresh])
    refine ⟨out, cs, h1, h2, by simpa [fresh] using h3, ?_⟩
    rw [h4]
    simp [delivered, fresh, bad_access, blk_rq_pos, blk_rq_cur_bytes, scenario_device,
      KERNEL_SECTOR_SIZE, EIO]

/-! ## The lifecycle: characterisation of `pmd_init` -/

theorem pmd_init_refused (env : HostEnv) (d : Driver) (h : Host)
    (hr : (register_blkdev env h).2 ≠ 0) :
    pmd_init env d h =
      (d, { h with calls := h.calls ++ [HostCall.register_blkdev] }, - EBUSY) := by
  unfold pmd_init
  simp only [hr]
  unfold register_blkdev at hr ⊢
  by_cases h1 : h.registered = true
  · simp [h1, EBUSY]
  · by_cases h2 : env.register_err = 0
    · simp [h1, h2] at hr
    · simp [h1, h2]

theorem pmd_init_registered (env : HostEnv) (d : Driver) (h : Host)
    (hreg : h.registered = false) (herr : env.register_err = 0) :
    pmd_init env d h =
      if mapped_at env = 0 then
        ({ d with pmd_size := map_size, pmd_virt := 0 },
         { h with calls := h.calls ++ HostCall.register_blkdev :: map_calls env ++
                    [HostCall.unregister_blkdev] },
         - EBUSY)
      else
        pmd_init_queue env { d with pmd_size := map_size, pmd_virt := mapped_at env }
          { h with registered := true, mapped := mapped_at env :: h.mapped,
                   calls := h.calls ++ HostCall.register_blkdev :: map_calls env } := by
  unfold pmd_init register_blkdev ioremap mapped_at map_calls out_ioremap unregister_blkdev
  by_cases h1 : env.ioremap_virt PMD_BASE map_size = 0
  · by_cases h2 : env.ioremap_virt (PMD_BASE + 0x10000000) map_size = 0
    · simp [hreg, herr, h1, h2, map_size] at *
    · simp [hreg, herr, h1, h2, map_size] at *
      simp [h1, h2]
  · simp [hreg, herr, h1, map_size] at *
    simp [h1]


theorem pmd_init_queue_eq (env : HostEnv) (d : Driver) (h : Host) :
    pmd_init_queue env d h =
      if env.queue_handle = 0 then
        ({ d with pmd_queue := 0 },
         { h with registered := false, mapped := h.mapped.erase d.pmd_virt,
                  calls := h.calls ++ [HostCall.blk_init_queue 0, HostCall.iounmap d.pmd_virt,
                    HostCall.unregister_blkdev] },
         - ENOMEM)
      else if env.disk_handle = 0 then
        ({ d with pmd_queue := env.queue_handle, pmd_gendisk := 0 },
         { h with registered := false, mapped := h.mapped.erase d.pmd_virt,
                  queues := env.queue_handle :: h.queues,
                  calls := h.calls ++ [HostCall.blk_init_queue env.queue_handle,
                    HostCall.alloc_disk 0, HostCall.iounmap d.pmd_virt,
                    HostCall.unregister_blkdev] },
         - ENOMEM)
      else
        ({ d with pmd_queue := env.queue_handle, pmd_gendisk := env.disk_handle },
         { h with queues := env.queue_handle :: h.queues,
                  disks := env.disk_handle :: h.disks,
                  published := env.disk_handle :: h.published,
                  disk_queue := env.queue_handle,
                  capacity := PMD_SECTORS,
                  calls := h.calls ++ [HostCall.blk_init_queue env.queue_handle,
                    HostCall.alloc_disk env.disk_handle,
                    HostCall.set_capacity env.disk_handle PMD_SECTORS,
                    HostCall.add_disk env.disk_handle] },
         0) := by
  unfold pmd_init_queue blk_init_queue alloc_disk out_queue out_ioremap iounmap
    unregister_blkdev set_capacity add_disk
  by_cases hq : env.queue_handle = 0
  · simp [hq]
  · by_cases hg : env.disk_handle = 0
    · simp [hq, hg]
    · simp [hq, hg]

/-- The full result of `pmd_init` when every step succeeds. -/
theorem pmd_init_success (env : HostEnv) (d : Driver) (h : Host)
    (hreg : h.registered = false) (herr : env.register_err = 0)
    (hmap : mapped_at env ≠ 0) (hq : env.queue_handle ≠ 0) (hg : env.disk_handle ≠ 0) :
    pmd_init env d h =
      ({ d with pmd_size := map_size, pmd_virt := mapped_at env,
                pmd_queue := env.queue_handle, pmd_gendisk := env.disk_handle },
       { registered := true, mapped := mapped_at env :: h.mapped,
         queues := env.queue_handle :: h.queues,
         disks := env.disk_handle :: h.disks,
         published := env.disk_handle :: h.published,
         disk_queue := env.queue_handle,
         capacity := PMD_SECTORS,
         calls := h.calls ++ HostCall.register_blkdev :: map_calls env ++
           [HostCall.blk_init_queue env.queue_handle,
            HostCall.alloc_disk env.disk_handle,
            HostCall.set_capacity env.disk_handle PMD_SECTORS,
            HostCall.add_disk env.disk_handle] },
       0) := by
  rw [pmd_init_registered env d h hreg herr, pmd_init_queue_eq]
  simp [hmap, hq, hg]

/-- Returning `0` happens on the all-success path only. -/
theorem pmd_init_zero (env : HostEnv) (d : Driver) (h : Host)
    (h0 : (pmd_init env d h).2.2 = 0) :
    h.registered = false ∧ env.register_err = 0 ∧ mapped_at env ≠ 0 ∧
      env.queue_handle ≠ 0 ∧ env.disk_handle ≠ 0 := by
  by_cases hr : (register_blkdev env h).2 ≠ 0
  · rw [pmd_init_refused env d h hr] at h0
    simp [EBUSY] at h0
  · have hreg : h.registered = false := by
      by_contra hc
      apply hr
      simp [register_blkdev, hc, EBUSY]
    have herr : env.register_err = 0 := by
      by_contra hc
      apply hr
      simp [register_blkdev, hreg, hc]
    rw [pmd_init_registered env d h hreg herr, pmd_init_queue_eq] at h0
    by_cases hm : mapped_at env = 0
    · simp [hm, EBUSY] at h0
    · by_cases hq : env.queue_handle = 0
      · simp [hm, hq, ENOMEM] at h0
      · by_cases hg : env.disk_handle = 0
        · simp [hm, hq, hg, ENOMEM] at h0
        · exact ⟨hreg, herr, hm, hq, hg⟩

/-! ## Claims about the lifecycle -/

/-- C5, evaluated at the failing input: when registration succeeds and both
mapping attempts fail, `pmd_init` unregisters the identity (so that a later
`pmd_init` on a host that can map succeeds), but the value it returns is
`-EBUSY` (-16), not `-ENOMEM` (-12): `ret` is still the value assigned before
the registration. -/
theorem C5_mapping_failure_returns_EBUSY :
    pmd_init host_no_mapping Driver.initial Host.idle =
      ({ Driver.initial with pmd_size := 33554432 },
       { Host.idle with calls :=
          [HostCall.register_blkdev, HostCall.ioremap 0x84000000 33554432 0,
           HostCall.ioremap 0x94000000 33554432 0, HostCall.unregister_blkdev] },
       - EBUSY) ∧
    (pmd_init host_no_mapping Driver.initial Host.idle).2.2 ≠ - ENOMEM ∧
    (pmd_init host_no_mapping Driver.initial Host.idle).2.1.registered = false ∧
    (pmd_init host_ok (pmd_init host_no_mapping Driver.initial Host.idle).1
      (pmd_init host_no_mapping Driver.initial Host.idle).2.1).2.2 = 0 := by
  decide

/-- C6, evaluated at the failing input: when registration, mapping and queue
construction succeed and `alloc_disk` fails, `pmd_init` returns `-ENOMEM`
after `iounmap` and `unregister_blkdev` only; it never calls
`blk_cleanup_queue`, and the request queue it created is still held by the
host on return. -/
theorem C6_disk_failure_leaks_queue :
    pmd_init host_no_disk Driver.initial Host.idle =
      ({ Driver.initial with pmd_virt := 0xFA000000, pmd_size := 33554432, pmd_queue := 7 },
       { Host.idle with
          queues := [7],
          calls :=
          [HostCall.register_blkdev, HostCall.ioremap 0x84000000 33554432 0xFA000000,
           HostCall.blk_init_queue 7, HostCall.alloc_disk 0,
           HostCall.iounmap 0xFA000000, HostCall.unregister_blkdev] },
       - ENOMEM) ∧
    (pmd_init host_no_disk Driver.initial Host.idle).2.1.queues ≠ Host.idle.queues ∧
    HostCall.blk_cleanup_queue 7 ∉ (pmd_init host_no_disk Driver.initial Host.idle).2.1.calls := by
  decide

/-- C7 as stated fails: after a successful `pmd_init`, the release steps of
`pmd_exit` are unregister, unpublish, queue teardown, and not unpublish, queue
teardown, unmap, unregister. -/
theorem C7_pmd_exit_order_counterexample :
    (pmd_init host_ok Driver.initial Host.idle).2.2 = 0 ∧
    (new_calls (pmd_init host_ok Driver.initial Host.idle).2.1
        (pmd_exit (pmd_init host_ok Driver.initial Host.idle).1
          (pmd_init host_ok Driver.initial Host.idle).2.1).2).filterMap release_step =
      [Release.unregister, Release.unpublish, Release.queue] ∧
    (new_calls (pmd_init host_ok Driver.initial Host.idle).2.1
        (pmd_exit (pmd_init host_ok Driver.initial Host.idle).1
          (pmd_init host_ok Driver.initial Host.idle).2.1).2).filterMap release_step ≠
      [Release.unpublish, Release.queue, Release.unmap, Release.unregister] := by
  decide

/-- C7, amended: after a successful `pmd_init`, the release steps of
`pmd_exit` other than unmapping are, in this order: unregister the identity,
unpublish the disk, tear down the request queue; they act on the disk and the
queue that `pmd_init` created, and afterwards the identity is free and the
host holds no published disk, disk or queue beyond those it held before
`pmd_init`. -/
theorem C7_pmd_exit_order (env : HostEnv) (d0 d : Driver) (h0 h : Host)
    (hinit : pmd_init env d0 h0 = (d, h, 0)) :
    ((new_calls h (pmd_exit d h).2).filterMap release_step).filter
        (fun r => decide (r ≠ Release.unmap)) =
      [Release.unregister, Release.unpublish, Release.queue] ∧
    (new_calls h (pmd_exit d h).2).filter (fun c => decide (release_step c ≠ some Release.unmap)) =
      [HostCall.unregister_blkdev, HostCall.del_gendisk env.disk_handle,
       HostCall.put_disk env.disk_handle, HostCall.blk_cleanup_queue env.queue_handle] ∧
    (pmd_exit d h).2.registered = false ∧
    (pmd_exit d h).2.published = h0.published ∧
    (pmd_exit d h).2.disks = h0.disks ∧
    (pmd_exit d h).2.queues = h0.queues := by
  have hz : (pmd_init env d0 h0).2.2 = 0 := by rw [hinit]
  obtain ⟨hreg, herr, hmap, hq, hg⟩ := pmd_init_zero env d0 h0 hz
  rw [pmd_init_success env d0 h0 hreg herr hmap hq hg] at hinit
  simp only [Prod.mk.injEq] at hinit
  obtain ⟨hd, hh, _⟩ := hinit
  subst hd hh
  simp [new_calls, pmd_exit, unregister_blkdev, del_gendisk, put_disk, blk_cleanup_queue,
    release_step]


/-- Witness for the amended C7: the teardown of the device initialised on a
host where every acquisition succeeds. -/
theorem C7_pmd_exit_order_witness :
    pmd_init host_ok Driver.initial Host.idle =
      ((pmd_init host_ok Driver.initial Host.idle).1,
       (pmd_init host_ok Driver.initial Host.idle).2.1, 0) ∧
    (new_calls (pmd_init host_ok Driver.initial Host.idle).2.1
        (pmd_exit (pmd_init host_ok Driver.initial Host.idle).1
          (pmd_init host_ok Driver.initial Host.idle).2.1).2).filter
        (fun c => decide (release_step c ≠ some Release.unmap)) =
      [HostCall.unregister_blkdev, HostCall.del_gendisk host_ok.disk_handle,
       HostCall.put_disk host_ok.disk_handle, HostCall.blk_cleanup_queue host_ok.queue_handle] :=
  ⟨by decide,
   (C7_pmd_exit_order host_ok Driver.initial (pmd_init host_ok Driver.initial Host.idle).1
      Host.idle (pmd_init host_ok Driver.initial Host.idle).2.1 (by decide)).2.1⟩

/-- C8: whenever the host refuses the registration of the identity (it is
already taken, or the host answers with an error), `pmd_init` returns `-EBUSY`
having made no host call other than the registration attempt: no `ioremap`,
no queue, no disk; the file-scope variables and every resource the host holds
are as before the call. -/
theorem C8_refused_registration_is_busy (env : HostEnv) (d : Driver) (h : Host)
    (hr : h.registered = true ∨ env.register_err ≠ 0) :
    (pmd_init env d h).2.2 = - EBUSY ∧
    (pmd_init env d h).1 = d ∧
    new_calls h (pmd_init env d h).2.1 = [HostCall.register_blkdev] ∧
    (pmd_init env d h).2.1.registered = h.registered ∧
    (pmd_init env d h).2.1.mapped = h.mapped ∧
    (pmd_init env d h).2.1.queues = h.queues ∧
    (pmd_init env d h).2.1.disks = h.disks ∧
    (pmd_init env d h).2.1.published = h.published ∧
    (pmd_init env d h).2.1.capacity = h.capacity := by
  have hne : (register_blkdev env h).2 ≠ 0 := by
    unfold register_blkdev
    rcases hr with hr | hr
    · simp [hr, EBUSY]
    · by_cases hb : h.registered = true
      · simp [hb, EBUSY]
      · simp [hb, hr]
  rw [pmd_init_refused env d h hne]
  simp [new_calls]

/-- Witness for C8 (scenario 4 of the specification): a second `pmd_init`
without an intervening teardown returns `-EBUSY`. -/
theorem C8_refused_registration_is_busy_witness :
    ((pmd_init host_ok Driver.initial Host.idle).2.1.registered = true ∨
      host_ok.register_err ≠ 0) ∧
    (pmd_init host_ok (pmd_init host_ok Driver.initial Host.idle).1
      (pmd_init host_ok Driver.initial Host.idle).2.1).2.2 = - EBUSY :=
  ⟨Or.inl (by decide),
   (C8_refused_registration_is_busy host_ok (pmd_init host_ok Driver.initial Host.idle).1
      (pmd_init host_ok Driver.initial Host.idle).2.1 (Or.inl (by decide))).1⟩

/-- C9: when registration and mapping succeed and `blk_init_queue` fails,
`pmd_init` returns `-ENOMEM`; after the registration, the mapping calls and
the failed `blk_init_queue` it calls `iounmap` on the mapped address and then
`unregister_blkdev`, once each and nothing else; no disk is allocated or
published, and the host holds the same mappings as before with the identity
free. -/
theorem C9_queue_failure_unwinds (env : HostEnv) (d : Driver) (h : Host)
    (hreg : h.registered = false) (herr : env.register_err = 0)
    (hmap : mapped_at env ≠ 0) (hq : env.queue_handle = 0) :
    (pmd_init env d h).2.2 = - ENOMEM ∧
    new_calls h (pmd_init env d h).2.1 =
      HostCall.register_blkdev :: map_calls env ++
        [HostCall.blk_init_queue 0, HostCall.iounmap (mapped_at env),
         HostCall.unregister_blkdev] ∧
    ((new_calls h (pmd_init env d h).2.1).filterMap release_step) =
      [Release.unmap, Release.unregister] ∧
    (pmd_init env d h).2.1.registered = false ∧
    (pmd_init env d h).2.1.mapped = h.mapped ∧
    (pmd_init env d h).2.1.queues = h.queues ∧
    (pmd_init env d h).2.1.disks = h.disks ∧
    (pmd_init env d h).2.1.published = h.published := by
  rw [pmd_init_registered env d h hreg herr, pmd_init_queue_eq]
  by_cases h1 : env.ioremap_virt PMD_BASE map_size = 0
  · simp [hmap, hq, new_calls, map_calls, release_step, h1]
  · simp [hmap, hq, new_calls, map_calls, release_step, h1]

/-- Witness for C9: a host on which the request queue cannot be constructed. -/
theorem C9_queue_failure_unwinds_witness :
    Host.idle.registered = false ∧ host_no_queue.register_err = 0 ∧
    mapped_at host_no_queue ≠ 0 ∧ host_no_queue.queue_handle = 0 ∧
    (pmd_init host_no_queue Driver.initial Host.idle).2.2 = - ENOMEM ∧
    new_calls Host.idle (pmd_init host_no_queue Driver.initial Host.idle).2.1 =
      HostCall.register_blkdev :: map_calls host_no_queue ++
        [HostCall.blk_init_queue 0, HostCall.iounmap (mapped_at host_no_queue),
         HostCall.unregister_blkdev] :=
  ⟨rfl, rfl, by decide, rfl,
   (C9_queue_failure_unwinds host_no_queue Driver.initial Host.idle rfl rfl (by decide) rfl).1,
   (C9_queue_failure_unwinds host_no_queue Driver.initial Host.idle rfl rfl (by decide) rfl).2.1⟩


/-- The mapping step makes at most one call at the fallback address, and only
directly after a failed call at the primary address. -/
theorem fallback_only_after_primary_failure (env : HostEnv) (d : Driver) (h : Host) :
    ((new_calls h (pmd_init env d h).2.1).filter is_fallback_map).length ≤ 1 ∧
    ((∃ c ∈ new_calls h (pmd_init env d h).2.1, is_fallback_map c = true) →
      env.ioremap_virt PMD_BASE map_size = 0 ∧
      (new_calls h (pmd_init env d h).2.1).take 3 =
        [HostCall.register_blkdev, HostCall.ioremap PMD_BASE map_size 0,
         HostCall.ioremap (PMD_BASE + 0x10000000) map_size
           (env.ioremap_virt (PMD_BASE + 0x10000000) map_size)]) := by
  by_cases hr : (register_blkdev env h).2 ≠ 0
  · rw [pmd_init_refused env d h hr]
    simp [new_calls, is_fallback_map]
  · have hreg : h.registered = false := by
      by_contra hc
      apply hr
      simp [register_blkdev, hc, EBUSY]
    have herr : env.register_err = 0 := by
      by_contra hc
      apply hr
      simp [register_blkdev, hreg, hc]
    rw [pmd_init_registered env d h hreg herr, pmd_init_queue_eq]
    by_cases h1 : env.ioremap_virt PMD_BASE map_size = 0
    · by_cases h2 : env.ioremap_virt (PMD_BASE + 0x10000000) map_size = 0
      · simp [mapped_at, map_calls, h1, h2, new_calls, is_fallback_map]
      · by_cases hq : env.queue_handle = 0
        · simp [mapped_at, map_calls, h1, h2, hq, new_calls, is_fallback_map]
        · by_cases hg : env.disk_handle = 0
          · simp [mapped_at, map_calls, h1, h2, hq, hg, new_calls, is_fallback_map]
          · simp [mapped_at, map_calls, h1, h2, hq, hg, new_calls, is_fallback_map]
    · by_cases hq : env.queue_handle = 0
      · simp [mapped_at, map_calls, h1, hq, new_calls, is_fallback_map]
      · by_cases hg : env.disk_handle = 0
        · simp [mapped_at, map_calls, h1, hq, hg, new_calls, is_fallback_map]
        · simp [mapped_at, map_calls, h1, hq, hg, new_calls, is_fallback_map]

/-- C10: when the mapping at `PMD_BASE` fails, the retry at
`PMD_BASE + 0x10000000` succeeds and the later steps succeed, `pmd_init`
returns 0 with `pmd_virt` the address mapped at the fallback; `pmd_size` and
the published capacity are `PMD_SECTORS * 512` and `PMD_SECTORS`, the same as
for any initialisation whose primary mapping succeeds.  On every run the
fallback address is tried at most once, and only directly after a failed
attempt at the primary address. -/
theorem C10_fallback_mapping (env : HostEnv) (d : Driver) (h : Host)
    (hreg : h.registered = false) (herr : env.register_err = 0)
    (hprim : env.ioremap_virt PMD_BASE map_size = 0)
    (hfb : env.ioremap_virt (PMD_BASE + 0x10000000) map_size ≠ 0)
    (hq : env.queue_handle ≠ 0) (hg : env.disk_handle ≠ 0) :
    (pmd_init env d h).2.2 = 0 ∧
    (pmd_init env d h).1.pmd_virt = env.ioremap_virt (PMD_BASE + 0x10000000) map_size ∧
    (pmd_init env d h).2.1.mapped =
      env.ioremap_virt (PMD_BASE + 0x10000000) map_size :: h.mapped ∧
    (pmd_init env d h).1.pmd_size = PMD_SECTORS * KERNEL_SECTOR_SIZE ∧
    (pmd_init env d h).2.1.capacity = PMD_SECTORS ∧
    (pmd_init env d h).2.1.published = env.disk_handle :: h.published ∧
    new_calls h (pmd_init env d h).2.1 =
      [HostCall.register_blkdev, HostCall.ioremap PMD_BASE map_size 0,
       HostCall.ioremap (PMD_BASE + 0x10000000) map_size
         (env.ioremap_virt (PMD_BASE + 0x10000000) map_size),
       HostCall.blk_init_queue env.queue_handle, HostCall.alloc_disk env.disk_handle,
       HostCall.set_capacity env.disk_handle PMD_SECTORS,
       HostCall.add_disk env.disk_handle] ∧
    (∀ (env2 : HostEnv) (d2 : Driver) (h2 : Host),
      h2.registered = false → env2.register_err = 0 →
      env2.ioremap_virt PMD_BASE map_size ≠ 0 →
      env2.queue_handle ≠ 0 → env2.disk_handle ≠ 0 →
        (pmd_init env2 d2 h2).2.2 = 0 ∧
        (pmd_init env2 d2 h2).1.pmd_virt = env2.ioremap_virt PMD_BASE map_size ∧
        (pmd_init env d h).1.pmd_size = (pmd_init env2 d2 h2).1.pmd_size ∧
        (pmd_init env d h).2.1.capacity = (pmd_init env2 d2 h2).2.1.capacity) ∧
    (∀ (env3 : HostEnv) (d3 : Driver) (h3 : Host),
      ((new_calls h3 (pmd_init env3 d3 h3).2.1).filter is_fallback_map).length ≤ 1 ∧
      ((∃ c ∈ new_calls h3 (pmd_init env3 d3 h3).2.1, is_fallback_map c = true) →
        env3.ioremap_virt PMD_BASE map_size = 0 ∧
        (new_calls h3 (pmd_init env3 d3 h3).2.1).take 3 =
          [HostCall.register_blkdev, HostCall.ioremap PMD_BASE map_size 0,
           HostCall.ioremap (PMD_BASE + 0x10000000) map_size
             (env3.ioremap_virt (PMD_BASE + 0x10000000) map_size)])) := by
  have hmap : mapped_at env ≠ 0 := by simp [mapped_at, hprim, hfb]
  have hres := pmd_init_success env d h hreg herr hmap hq hg
  refine ⟨by rw [hres], by rw [hres]; simp [mapped_at, hprim],
    by rw [hres]; simp [mapped_at, hprim], by rw [hres]; rfl, by rw [hres], by rw [hres],
    by rw [hres]; simp [new_calls, map_calls, hprim], ?_,
    fun env3 d3 h3 => fallback_only_after_primary_failure env3 d3 h3⟩
  intro env2 d2 h2 hreg2 herr2 hprim2 hq2 hg2
  have hmap2 : mapped_at env2 ≠ 0 := by simp [mapped_at, hprim2]
  rw [hres, pmd_init_success env2 d2 h2 hreg2 herr2 hmap2 hq2 hg2]
  simp [mapped_at, hprim2]

/-- Witness for C10 (scenario 5 of the specification): a host that maps at the
fallback address only. -/
theorem C10_fallback_mapping_witness :
    Host.idle.registered = false ∧ host_fallback.register_err = 0 ∧
    host_fallback.ioremap_virt PMD_BASE map_size = 0 ∧
    host_fallback.ioremap_virt (PMD_BASE + 0x10000000) map_size ≠ 0 ∧
    host_fallback.queue_handle ≠ 0 ∧ host_fallback.disk_handle ≠ 0 ∧
    (pmd_init host_fallback Driver.initial Host.idle).2.2 = 0 ∧
    (pmd_init host_fallback Driver.initial Host.idle).1.pmd_virt =
      host_fallback.ioremap_virt (PMD_BASE + 0x10000000) map_size :=
  ⟨rfl, rfl, by decide, by decide, by decide, by decide,
   (C10_fallback_mapping host_fallback Driver.initial Host.idle rfl rfl (by decide)
      (by decide) (by decide) (by decide)).1,
   (C10_fallback_mapping host_fallback Driver.initial Host.idle rfl rfl (by decide)
      (by decide) (by decide) (by decide)).2.1⟩

/-! ## Claims about reachable lifecycle states, capacity and the open/release gate -/

/-- Every path of `pmd_init` that does not return `0` and got past the
registration leaves the identity unregistered. -/
theorem pmd_init_failed_unregistered (env : HostEnv) (d : Driver) (h : Host)
    (hreg : h.registered = false) (herr : env.register_err = 0)
    (hne : (pmd_init env d h).2.2 ≠ 0) :
    (pmd_init env d h).2.1.registered = false := by
  rw [pmd_init_registered env d h hreg herr, pmd_init_queue_eq] at hne ⊢
  by_cases hm : mapped_at env = 0
  · simp [hm, hreg]
  · by_cases hq : env.queue_handle = 0
    · simp [hm, hq]
    · by_cases hg : env.disk_handle = 0
      · simp [hm, hq, hg]
      · simp [hm, hq, hg] at hne

/-- C11 as stated fails: after a `pmd_init` whose queue construction failed
the mapping has been unwound and the identity is free, yet `pmd_virt` is not
null; and it is not null after `pmd_exit` either. -/
theorem C11_pmd_virt_counterexample :
    Reachable (pmd_init host_no_queue Driver.initial Host.idle).1
      (pmd_init host_no_queue Driver.initial Host.idle).2.1 ∧
    (pmd_init host_no_queue Driver.initial Host.idle).2.2 = - ENOMEM ∧
    (pmd_init host_no_queue Driver.initial Host.idle).2.1.mapped = [] ∧
    (pmd_init host_no_queue Driver.initial Host.idle).2.1.registered = false ∧
    (pmd_init host_no_queue Driver.initial Host.idle).1.pmd_virt ≠ 0 ∧
    (pmd_exit (pmd_init host_ok Driver.initial Host.idle).1
      (pmd_init host_ok Driver.initial Host.idle).2.1).1.pmd_virt ≠ 0 :=
  ⟨Reachable.init host_no_queue Reachable.start, by decide, by decide, by decide, by decide,
    by decide⟩

/-- C11, amended: in every state reachable through `pmd_init` (on every
success and failure path) and `pmd_exit` in which the device is initialised
(its identity is registered: the last `pmd_init` that got past the
registration succeeded and no `pmd_exit` followed), `pmd_virt` is non-null and
is the address of a region that is currently mapped; and `pmd_virt` is null in
the initial state and after every `pmd_init` in which the registration
succeeded and both mapping attempts failed. -/
theorem C11_pmd_virt_when_initialised (d : Driver) (h : Host) (hr : Reachable d h) :
    (h.registered = true → d.pmd_virt ≠ 0 ∧ d.pmd_virt ∈ h.mapped) ∧
    Driver.initial.pmd_virt = 0 ∧
    (∀ env : HostEnv, h.registered = false → env.register_err = 0 → mapped_at env = 0 →
      (pmd_init env d h).1.pmd_virt = 0) := by
  refine ⟨?_, rfl, ?_⟩
  · induction hr with
    | start => intro hc; simp [Host.idle] at hc
    | @init env d h _ ih =>
      intro hreg'
      by_cases hrf : (register_blkdev env h).2 ≠ 0
      · rw [pmd_init_refused env d h hrf] at hreg' ⊢
        exact ih hreg'
      · have hreg : h.registered = false := by
          by_contra hc
          apply hrf
          simp [register_blkdev, hc, EBUSY]
        have herr : env.register_err = 0 := by
          by_contra hc
          apply hrf
          simp [register_blkdev, hreg, hc]
        by_cases hz : (pmd_init env d h).2.2 = 0
        · obtain ⟨_, _, hmap, hq, hg⟩ := pmd_init_zero env d h hz
          rw [pmd_init_success env d h hreg herr hmap hq hg]
          exact ⟨hmap, by simp⟩
        · have := pmd_init_failed_unregistered env d h hreg herr hz
          rw [this] at hreg'
          exact absurd hreg' (by simp)
    | @exit d h _ _ =>
      intro hc
      simp [pmd_exit, unregister_blkdev, del_gendisk, put_disk, blk_cleanup_queue] at hc
  · intro env hreg herr hmap
    rw [pmd_init_registered env d h hreg herr]
    simp [hmap]

/-- Witness for the amended C11: the state after a successful `pmd_init`. -/
theorem C11_pmd_virt_when_initialised_witness :
    Reachable (pmd_init host_ok Driver.initial Host.idle).1
      (pmd_init host_ok Driver.initial Host.idle).2.1 ∧
    ((pmd_init host_ok Driver.initial Host.idle).2.1.registered = true →
      (pmd_init host_ok Driver.initial Host.idle).1.pmd_virt ≠ 0 ∧
      (pmd_init host_ok Driver.initial Host.idle).1.pmd_virt ∈
        (pmd_init host_ok Driver.initial Host.idle).2.1.mapped) :=
  ⟨Reachable.init host_ok Reachable.start,
   (C11_pmd_virt_when_initialised _ _ (Reachable.init host_ok Reachable.start)).1⟩

/-- C12: from an unregistered state and on a host where registration, mapping,
queue and disk construction succeed, `pmd_init` succeeds, and after `pmd_exit`
a second `pmd_init` succeeds again (the identity is free after the teardown)
with the same `pmd_size` and the same published capacity as the first. -/
theorem C12_init_exit_init (env : HostEnv) (d : Driver) (h : Host)
    (hreg : h.registered = false) (herr : env.register_err = 0)
    (hmap : mapped_at env ≠ 0) (hq : env.queue_handle ≠ 0) (hg : env.disk_handle ≠ 0) :
    (pmd_init env d h).2.2 = 0 ∧
    (pmd_exit (pmd_init env d h).1 (pmd_init env d h).2.1).2.registered = false ∧
    (pmd_init env (pmd_exit (pmd_init env d h).1 (pmd_init env d h).2.1).1
      (pmd_exit (pmd_init env d h).1 (pmd_init env d h).2.1).2).2.2 = 0 ∧
    (pmd_init env (pmd_exit (pmd_init env d h).1 (pmd_init env d h).2.1).1
      (pmd_exit (pmd_init env d h).1 (pmd_init env d h).2.1).2).2.1.capacity =
      (pmd_init env d h).2.1.capacity ∧
    (pmd_init env (pmd_exit (pmd_init env d h).1 (pmd_init env d h).2.1).1
      (pmd_exit (pmd_init env d h).1 (pmd_init env d h).2.1).2).1.pmd_size =
      (pmd_init env d h).1.pmd_size := by
  have h1 := pmd_init_success env d h hreg herr hmap hq hg
  have hx : (pmd_exit (pmd_init env d h).1 (pmd_init env d h).2.1).2.registered = false := by
    simp [pmd_exit, unregister_blkdev, del_gendisk, put_disk, blk_cleanup_queue]
  have h2 := pmd_init_success env (pmd_exit (pmd_init env d h).1 (pmd_init env d h).2.1).1
    (pmd_exit (pmd_init env d h).1 (pmd_init env d h).2.1).2 hx herr hmap hq hg
  refine ⟨by rw [h1], hx, by rw [h2], ?_, ?_⟩
  · rw [h2, h1]
  · rw [h2, h1]

/-- Witness for C12: initialise, tear down and initialise again on a host where
every acquisition succeeds. -/
theorem C12_init_exit_init_witness :
    Host.idle.registered = false ∧ host_ok.register_err = 0 ∧ mapped_at host_ok ≠ 0 ∧
    host_ok.queue_handle ≠ 0 ∧ host_ok.disk_handle ≠ 0 ∧
    (pmd_init host_ok
      (pmd_exit (pmd_init host_ok Driver.initial Host.idle).1
        (pmd_init host_ok Driver.initial Host.idle).2.1).1
      (pmd_exit (pmd_init host_ok Driver.initial Host.idle).1
        (pmd_init host_ok Driver.initial Host.idle).2.1).2).2.2 = 0 :=
  ⟨rfl, rfl, by decide, by decide, by decide,
   (C12_init_exit_init host_ok Driver.initial Host.idle rfl rfl (by decide) (by decide)
      (by decide)).2.2.1⟩

/-- C13: after every `pmd_init` that returns 0, `pmd_size` is
`PMD_SECTORS * KERNEL_SECTOR_SIZE = 65536 * 512 = 33554432` bytes (32 MiB), a
product below `2 ^ 31` and so computed without overflow in `int` and stored
unchanged in an `unsigned long` of any width `w ≥ 31`; the capacity published
to the host is `PMD_SECTORS = 65536` sectors on the disk that was added, so the
published capacity times 512 is `pmd_size`, the bound of the range test of
`do_pmd_request`. -/
theorem C13_size_and_capacity (env : HostEnv) (d : Driver) (h : Host)
    (hz : (pmd_init env d h).2.2 = 0) :
    (pmd_init env d h).1.pmd_size = PMD_SECTORS * KERNEL_SECTOR_SIZE ∧
    (pmd_init env d h).1.pmd_size = 33554432 ∧
    PMD_SECTORS * KERNEL_SECTOR_SIZE < 2 ^ 31 ∧
    (∀ w : Nat, 31 ≤ w → (pmd_init env d h).1.pmd_size % 2 ^ w = 65536 * 512) ∧
    (pmd_init env d h).2.1.capacity = PMD_SECTORS ∧
    (pmd_init env d h).2.1.capacity = 65536 ∧
    HostCall.set_capacity env.disk_handle 65536 ∈ new_calls h (pmd_init env d h).2.1 ∧
    (pmd_init env d h).2.1.capacity * 512 = (pmd_init env d h).1.pmd_size ∧
    (∀ (w : Nat) (req : Request),
      bad_access w (pmd_init env d h).1 req =
        decide (((blk_rq_pos req <<< 9) % 2 ^ w + blk_rq_cur_bytes req) % 2 ^ w >
          (pmd_init env d h).2.1.capacity * 512)) := by
  obtain ⟨hreg, herr, hmap, hq, hg⟩ := pmd_init_zero env d h hz
  rw [pmd_init_success env d h hreg herr hmap hq hg]
  refine ⟨rfl, rfl, by decide, ?_, rfl, rfl, by simp [new_calls, PMD_SECTORS], rfl, ?_⟩
  · intro w hw
    have : (2:Nat) ^ 31 ≤ 2 ^ w := Nat.pow_le_pow_right (by decide) hw
    apply Nat.mod_eq_of_lt
    simp only [map_size, PMD_SECTORS, KERNEL_SECTOR_SIZE]
    omega
  · intro w req
    rfl

/-- Witness for C13: the initialisation on a host where every acquisition
succeeds. -/
theorem C13_size_and_capacity_witness :
    (pmd_init host_ok Driver.initial Host.idle).2.2 = 0 ∧
    (pmd_init host_ok Driver.initial Host.idle).1.pmd_size = 33554432 ∧
    (pmd_init host_ok Driver.initial Host.idle).2.1.capacity = 65536 :=
  ⟨by decide,
   (C13_size_and_capacity host_ok Driver.initial Host.idle (by decide)).2.1,
   (C13_size_and_capacity host_ok Driver.initial Host.idle (by decide)).2.2.2.2.2.1⟩

/-- C14: `pmd_open` returns 0 for every argument and in every state and leaves
the file-scope variables (`pmd_virt`, `pmd_size`, `current_device`, ...), the
memory and the mutex as they are, its only effect being the logged line;
`pmd_release`, entered with `pmd_mutex` free, returns 0 for every argument
whether `current_device` is `-1` or not, with the whole state as on entry, in
particular `pmd_mutex` released again. -/
theorem C14_open_release_frame (bdev disk mode : Nat) (g : Gate) :
    ((pmd_open bdev mode g).2 = 0 ∧
      (pmd_open bdev mode g).1.drv = g.drv ∧
      (pmd_open bdev mode g).1.mem = g.mem ∧
      (pmd_open bdev mode g).1.pmd_mutex = g.pmd_mutex) ∧
    (g.pmd_mutex = false → pmd_release disk mode g = some (g, 0)) := by
  refine ⟨⟨rfl, rfl, rfl, rfl⟩, ?_⟩
  intro hfree
  obtain ⟨drv, mem, m, console⟩ := g
  simp only [] at hfree
  subst hfree
  by_cases hc : drv.current_device = -1
  · simp [pmd_release, mutex_lock, mutex_unlock, hc]
  · simp [pmd_release, mutex_lock, mutex_unlock, hc]

/-- Witness for C14: `pmd_release` on the initial variables with the mutex
free, and on a state in which a device is marked current. -/
theorem C14_open_release_frame_witness :
    (pmd_release 1 0 ⟨Driver.initial, fun _ => 0, false, []⟩).map Prod.snd = some 0 ∧
    (pmd_release 1 0 ⟨{ Driver.initial with current_device := 0 }, fun _ => 0, false, []⟩).map
      Prod.snd = some 0 := by
  constructor
  · rw [(C14_open_release_frame 1 1 0 ⟨Driver.initial, fun _ => 0, false, []⟩).2 rfl]
    rfl
  · rw [((C14_open_release_frame 1 1 0
      ⟨{ Driver.initial with current_device := 0 }, fun _ => 0, false, []⟩).2 rfl)]
    rfl

/-! ## Claims about termination, the arithmetic of the bounds test and the frame of a transfer -/

/-- With less fuel than segments to serve, the loop does not finish. -/
theorem pmd_loop_none (w : Nat) (d : Driver) :
    ∀ (fuel : Nat) (s : IOState) (req : Request),
      fuel < req.rest.length + 1 + pending_segments s.q →
      pmd_loop w d fuel s (some req) = none := by
  intro fuel
  induction fuel with
  | zero => intro s req _; rfl
  | succ n ih =>
    intro s req h
    obtain ⟨cur, rest⟩ := req
    rw [pmd_loop, pmd_iteration]
    cases rest with
    | nil =>
      cases hp : s.q.pending with
      | nil => simp [pending_segments, hp] at h
      | cons r rs =>
        simp only []
        apply ih
        simp [pending_segments, hp] at h ⊢
        omega
    | cons x xs =>
      simp only []
      apply ih
      simp [pending_segments] at h ⊢
      omega

theorem do_pmd_request_none (w : Nat) (d : Driver) (fuel : Nat) (s : IOState)
    (h : fuel < pending_segments s.q) :
    do_pmd_request w d fuel s = none := by
  obtain ⟨mem, ⟨pending, completed⟩, copies⟩ := s
  cases pending with
  | nil => simp [pending_segments] at h
  | cons r rs =>
    simp only [do_pmd_request, blk_fetch_request]
    apply pmd_loop_none
    simp [pending_segments] at h ⊢
    omega


theorem pending_segments_eq (q : request_queue) :
    pending_segments q = (delivered q).length := by
  obtain ⟨pending, completed⟩ := q
  simp only [pending_segments, delivered]
  induction pending with
  | nil => rfl
  | cons r rs ih => simp [ih]; omega

/-- C15: in the host model, where a completion call either finishes the
current request or leaves it with strictly fewer remaining segments and the
queue is a finite list, `do_pmd_request` terminates on every queue: the loop
returns after exactly one iteration per delivered segment (it returns with
that much fuel, with any larger amount of fuel the result is the same, and
with less it has not returned), and when it returns the host queue is empty
and every delivered segment has been completed. -/
theorem C15_dispatch_terminates (w : Nat) (d : Driver) (s : IOState) :
    (∃ out, do_pmd_request w d (delivered s.q).length s = some out ∧
      out.q.pending = [] ∧
      out.q.completed.length = s.q.completed.length + (delivered s.q).length) ∧
    (∀ fuel, (delivered s.q).length ≤ fuel →
      do_pmd_request w d fuel s = do_pmd_request w d (delivered s.q).length s) ∧
    (∀ fuel, fuel < (delivered s.q).length → do_pmd_request w d fuel s = none) ∧
    (∀ (q : request_queue) (req : Request) (err : Int),
      (__blk_end_request_cur q req err).2 = none ∨
      ∃ r, (__blk_end_request_cur q req err).2 = some r ∧
        r.rest.length < req.rest.length) := by
  have hp := pending_segments_eq s.q
  refine ⟨?_, ?_, ?_, ?_⟩
  · obtain ⟨cs, hcs, hm⟩ := foldl_serve_completed w d (delivered s.q) s
    refine ⟨served w d s, do_pmd_request_eq w d _ s (by omega), rfl, ?_⟩
    have hl := congrArg List.length hm
    simp only [List.length_map] at hl
    simp [served, hcs, hl]
  · intro fuel hf
    rw [do_pmd_request_eq w d fuel s (by omega), do_pmd_request_eq w d _ s (by omega)]
  · intro fuel hf
    exact do_pmd_request_none w d fuel s (by omega)
  · intro q req err
    obtain ⟨cur, rest⟩ := req
    cases rest with
    | nil => left; rfl
    | cons x xs => right; exact ⟨⟨x, xs⟩, rfl, by simp⟩

/-- C16: for a segment with `pos * 512 + len < 2 ^ w`, the value
`start = blk_rq_pos(req) << 9` computed in `unsigned long` is `pos * 512`; the
test `start + len > pmd_size` of line 65 rejects the segment exactly when
`pos * 512 + len > pmd_size`; and a segment in range (`pos * 512 + len ≤
pmd_size`, equality included) is accepted: `err` stays 0 and one copy of `len`
bytes is made at offset `pos * 512` from the mapped base. -/
theorem C16_bounds_test_exact (w : Nat) (d : Driver) (s : IOState) (req : Request)
    (h : req.cur.pos * 512 + req.cur.buffer.length < 2 ^ w) :
    (blk_rq_pos req <<< 9) % 2 ^ w = req.cur.pos * 512 ∧
    (bad_access w d req = true ↔ req.cur.pos * 512 + req.cur.buffer.length > d.pmd_size) ∧
    (req.cur.pos * 512 + req.cur.buffer.length ≤ d.pmd_size →
      (pmd_transfer w d s req).2.2 = 0 ∧
      (pmd_transfer w d s req).1.copies = s.copies ++
        [⟨req.cur.dir, req.cur.pos * 512, (d.pmd_virt + req.cur.pos * 512) % 2 ^ w,
          req.cur.buffer.length⟩]) := by
  have hs : (blk_rq_pos req <<< 9) % 2 ^ w = req.cur.pos * 512 := by
    rw [blk_rq_pos, Nat.shiftLeft_eq]
    exact Nat.mod_eq_of_lt (by omega)
  have hb : bad_access w d req = true ↔
      req.cur.pos * 512 + req.cur.buffer.length > d.pmd_size := by
    simp only [bad_access, hs, blk_rq_cur_bytes, Nat.mod_eq_of_lt h, decide_eq_true_eq]
  refine ⟨hs, hb, ?_⟩
  intro hin
  have hnb : bad_access w d req = false := by
    cases hc : bad_access w d req with
    | false => rfl
    | true => have := hb.mp hc; omega
  unfold pmd_transfer
  rw [hs]
  cases hd : req.cur.dir with
  | READ => simp [hnb, rq_data_dir, hd, blk_rq_cur_bytes]
  | WRITE => simp [hnb, rq_data_dir, hd, blk_rq_cur_bytes]

set_option maxRecDepth 100000 in
/-- Witness for C16: on the 16-sector device, the last sector (a segment that
ends exactly at `pmd_size`) is accepted and copied at offset `15 * 512`. -/
theorem C16_bounds_test_exact_witness :
    15 * 512 + (List.replicate 512 170).length < 2 ^ 32 ∧
    15 * 512 + (List.replicate 512 170).length ≤ scenario_device.pmd_size ∧
    (pmd_transfer 32 scenario_device (fresh [])
      ⟨⟨Dir.WRITE, 15, List.replicate 512 170⟩, []⟩).2.2 = 0 ∧
    (pmd_transfer 32 scenario_device (fresh [])
      ⟨⟨Dir.WRITE, 15, List.replicate 512 170⟩, []⟩).1.copies =
      (fresh []).copies ++ [⟨Dir.WRITE, 15 * 512,
        (scenario_device.pmd_virt + 15 * 512) % 2 ^ 32, (List.replicate 512 170).length⟩] :=
  ⟨by simp, by simp [scenario_device, KERNEL_SECTOR_SIZE],
   ((C16_bounds_test_exact 32 scenario_device (fresh [])
      ⟨⟨Dir.WRITE, 15, List.replicate 512 170⟩, []⟩ (by simp)).2.2
      (by simp [scenario_device, KERNEL_SECTOR_SIZE])).1,
   ((C16_bounds_test_exact 32 scenario_device (fresh [])
      ⟨⟨Dir.WRITE, 15, List.replicate 512 170⟩, []⟩ (by simp)).2.2
      (by simp [scenario_device, KERNEL_SECTOR_SIZE])).2⟩

/-- The frame of one transfer when the arithmetic does not wrap: for a segment
with `start + len ≤ pmd_size` (`start` the `unsigned long` value) on a region
that lies inside the address space, a read changes no memory and only the
buffer of the request, and a write leaves the request as it is, stores the
buffer in bytes `[start, start + len)` of the backing store and changes no
other byte of memory. -/
theorem pmd_transfer_frame (w : Nat) (d : Driver) (s : IOState) (req : Request)
    (hin : (blk_rq_pos req <<< 9) % 2 ^ w + blk_rq_cur_bytes req ≤ d.pmd_size)
    (hmap : d.pmd_virt + d.pmd_size ≤ 2 ^ w) :
    (pmd_transfer w d s req).2.2 = 0 ∧
    (rq_data_dir req = Dir.READ →
      (pmd_transfer w d s req).1.mem = s.mem ∧
      (pmd_transfer w d s req).2.1.cur.dir = req.cur.dir ∧
      (pmd_transfer w d s req).2.1.cur.pos = req.cur.pos ∧
      (pmd_transfer w d s req).2.1.rest = req.rest) ∧
    (rq_data_dir req = Dir.WRITE →
      (pmd_transfer w d s req).2.1 = req ∧
      (∀ o, o < d.pmd_size →
        (pmd_transfer w d s req).1.mem (d.pmd_virt + o) =
          if (blk_rq_pos req <<< 9) % 2 ^ w ≤ o ∧
              o < (blk_rq_pos req <<< 9) % 2 ^ w + blk_rq_cur_bytes req then
            req.cur.buffer.getD (o - (blk_rq_pos req <<< 9) % 2 ^ w) 0
          else s.mem (d.pmd_virt + o)) ∧
      (∀ a, a < d.pmd_virt ∨ d.pmd_virt + d.pmd_size ≤ a →
        (pmd_transfer w d s req).1.mem a = s.mem a)) := by
  have hle : ((blk_rq_pos req <<< 9) % 2 ^ w + blk_rq_cur_bytes req) % 2 ^ w ≤
      (blk_rq_pos req <<< 9) % 2 ^ w + blk_rq_cur_bytes req := Nat.mod_le _ _
  have hnb : bad_access w d req = false := by
    simp only [bad_access, decide_eq_false_iff_not, not_lt]
    omega
  refine ⟨by simp [pmd_transfer, hnb]; split <;> rfl, ?_, ?_⟩
  · intro hr
    simp [pmd_transfer, hnb, hr]
  · intro hwr
    have hnr : ¬ rq_data_dir req = Dir.READ := by simp [hwr]
    refine ⟨by simp [pmd_transfer, hnb, hnr], ?_, ?_⟩
    · intro o ho
      simp only [pmd_transfer, hnb, hnr, if_false, Bool.false_eq_true, memcpy_to]
      by_cases hz : blk_rq_cur_bytes req = 0
      · simp only [hz, Nat.add_zero]
        rw [if_neg (by omega), if_neg (by omega)]
      · have haddr : (d.pmd_virt + (blk_rq_pos req <<< 9) % 2 ^ w) % 2 ^ w =
            d.pmd_virt + (blk_rq_pos req <<< 9) % 2 ^ w :=
          Nat.mod_eq_of_lt (by omega)
        rw [haddr]
        by_cases hc : (blk_rq_pos req <<< 9) % 2 ^ w ≤ o ∧
            o < (blk_rq_pos req <<< 9) % 2 ^ w + blk_rq_cur_bytes req
        · have hc2 : d.pmd_virt + (blk_rq_pos req <<< 9) % 2 ^ w ≤ d.pmd_virt + o ∧
              d.pmd_virt + o <
                d.pmd_virt + (blk_rq_pos req <<< 9) % 2 ^ w + blk_rq_cur_bytes req := by
            omega
          have he : d.pmd_virt + o - (d.pmd_virt + (blk_rq_pos req <<< 9) % 2 ^ w) =
              o - (blk_rq_pos req <<< 9) % 2 ^ w := by omega
          rw [if_pos hc2, if_pos hc, he]
        · have hc2 : ¬ (d.pmd_virt + (blk_rq_pos req <<< 9) % 2 ^ w ≤ d.pmd_virt + o ∧
              d.pmd_virt + o <
                d.pmd_virt + (blk_rq_pos req <<< 9) % 2 ^ w + blk_rq_cur_bytes req) := by
            omega
          rw [if_neg hc2, if_neg hc]
    · intro a ha
      simp only [pmd_transfer, hnb, hnr, if_false, Bool.false_eq_true, memcpy_to]
      by_cases hz : blk_rq_cur_bytes req = 0
      · simp only [hz, Nat.add_zero]
        rw [if_neg (by omega)]
      · have haddr : (d.pmd_virt + (blk_rq_pos req <<< 9) % 2 ^ w) % 2 ^ w =
            d.pmd_virt + (blk_rq_pos req <<< 9) % 2 ^ w :=
          Nat.mod_eq_of_lt (by omega)
        rw [haddr]
        have hc2 : ¬ (d.pmd_virt + (blk_rq_pos req <<< 9) % 2 ^ w ≤ a ∧
            a < d.pmd_virt + (blk_rq_pos req <<< 9) % 2 ^ w + blk_rq_cur_bytes req) := by
          omega
        rw [if_neg hc2]


set_option maxRecDepth 100000 in
/-- C17, evaluated at the failing input: on a 32-bit machine with the default
65536-sector device mapped at `0xFA000000` (a region inside the address
space), the write of 1024 bytes at sector 8388607 is accepted (status 0) with
`start = 2 ^ 32 - 512`; byte 0 of the backing store (address `pmd_virt + 0`)
lies outside `[start, start + len)`, yet it changes from 0 to 170. -/
theorem C17_write_changes_byte_outside_range :
    omap_device.pmd_virt + omap_device.pmd_size ≤ 2 ^ 32 ∧
    ∃ out, do_pmd_request 32 omap_device 1
        (fresh [⟨⟨Dir.WRITE, 8388607, List.replicate 1024 170⟩, []⟩]) = some out ∧
      out.q.completed.map Completion.err = [0] ∧
      out.copies.map (fun c => (c.start, c.len)) = [(4294966784, 1024)] ∧
      ¬ (4294966784 ≤ 0 ∧ 0 < 4294966784 + 1024) ∧
      0 < omap_device.pmd_size ∧
      (fresh []).mem (omap_device.pmd_virt + 0) = 0 ∧
      out.mem (omap_device.pmd_virt + 0) = 170 := by
  refine ⟨by simp [omap_device, PMD_SECTORS, KERNEL_SECTOR_SIZE], ?_⟩
  simp [do_pmd_request, pmd_loop, pmd_transfer, pmd_done, bad_access, omap_device, blk_rq_pos,
    blk_rq_cur_bytes, fresh, __blk_end_request_cur, blk_fetch_request, rq_data_dir,
    PMD_SECTORS, KERNEL_SECTOR_SIZE, memcpy_to, EIO]

end Pmd
